import Mathlib

/-!
Verification of the transaction-execution core of the `revm` repository
(crates/revm/src/evm_impl.rs and crates/revm/src/db/in_memory_db.rs) against
its natural-language specification.

The development is a shallow embedding:

* byte strings are `List Nat` (each entry < 256), addresses and 256-bit words
  are `Nat`;
* `create_address`, `create2_address`, `initialization_gas`, `preflight`,
  `transact`, `finalize`, `create_inner`, `call_inner` are translated from
  `evm_impl.rs`; `CacheDB.storage` / `CacheDB.storageRef` are translated from
  `in_memory_db.rs`;
* support code of the repository that is not part of the given sources
  (the `Gas` accounting struct, the `SubRoutine` journaled state, the `Env`
  structures, the gas constants, the `Return` enum, the Keccak-256 and RLP
  crates) is modelled from the specification; each such definition carries a
  `Modelled from the spec:` doc comment;
* the interpreter and the precompile bodies are out of scope for the spec and
  enter the embedding as oracle parameters.

The model fixes the compile-time constants `USE_GAS = true` and
`INSPECT = false` (no inspector attached), and
`cfg.perf_all_precompiles_have_balance = false`.
-/

/-! Keccak-256. Modelled from the spec: the spec (§3) fixes the hash to
Keccak-256; the implementation in the repository lives in the external `sha3`
crate. The sponge below is Keccak-f[1600] with rate 1088 and the original
Keccak padding byte 0x01. -/

/-- Mask for 64-bit lanes. -/
def U64MASK : Nat := 2 ^ 64 - 1

/-- Left rotation of a 64-bit lane. -/
def rotl64 (a n : Nat) : Nat :=
  ((a <<< (n % 64)) ||| (a >>> ((64 - n % 64) % 64))) &&& U64MASK

/-- Round constants of Keccak-f[1600]. -/
def keccakRC : List Nat :=
  [0x0000000000000001, 0x0000000000008082, 0x800000000000808A] ++
  [0x8000000080008000, 0x000000000000808B, 0x0000000080000001] ++
  [0x8000000080008081, 0x8000000000008009, 0x000000000000008A] ++
  [0x0000000000000088, 0x0000000080008009, 0x000000008000000A] ++
  [0x000000008000808B, 0x800000000000008B, 0x8000000000008089] ++
  [0x8000000000008003, 0x8000000000008002, 0x8000000000000080] ++
  [0x000000000000800A, 0x800000008000000A, 0x8000000080008081] ++
  [0x8000000000008080, 0x0000000080000001, 0x8000000080008008]

/-- Rotation offsets of the rho step, flat index `x + 5 * y`. -/
def keccakRot : List Nat :=
  [0, 1, 62, 28, 27] ++
  [36, 44, 6, 55, 20] ++
  [3, 10, 43, 25, 39] ++
  [41, 45, 15, 21, 8] ++
  [18, 2, 61, 56, 14]

/-- Lane `i` of a 25-lane state (flat index `x + 5 * y`). -/
def lane (s : List Nat) (i : Nat) : Nat := s.getD i 0

/-- One round of Keccak-f[1600]: theta, rho, pi, chi, iota. -/
def keccakRound (s : List Nat) (rc : Nat) : List Nat :=
  let c := fun x => lane s x ^^^ lane s (x + 5) ^^^ lane s (x + 10) ^^^
                    lane s (x + 15) ^^^ lane s (x + 20)
  let d := fun x => c ((x + 4) % 5) ^^^ rotl64 (c ((x + 1) % 5)) 1
  let sTheta := (List.range 25).map (fun i => lane s i ^^^ d (i % 5))
  let sRhoPi := (List.range 25).map (fun j =>
    let p := j % 5
    let q := j / 5
    let x := (p + 3 * q) % 5
    let y := p
    rotl64 (lane sTheta (x + 5 * y)) (lane keccakRot (x + 5 * y)))
  let sChi := (List.range 25).map (fun j =>
    let p := j % 5
    let q := j / 5
    lane sRhoPi j ^^^
      ((lane sRhoPi ((p + 1) % 5 + 5 * q) ^^^ U64MASK) &&& lane sRhoPi ((p + 2) % 5 + 5 * q)))
  match sChi with
  | [] => []
  | a :: rest => (a ^^^ rc) :: rest

/-- The full 24-round Keccak-f[1600] permutation. -/
def keccakF (s : List Nat) : List Nat := keccakRC.foldl keccakRound s

/-- Little-endian interpretation of a byte list as one 64-bit lane. -/
def laneOfBytesLE (bs : List Nat) : Nat := bs.foldr (fun b acc => b + 256 * acc) 0

/-- Fixed-width little-endian bytes of a lane. -/
def natToBytesLE : Nat → Nat → List Nat
  | 0, _ => []
  | w + 1, n => (n % 256) :: natToBytesLE w (n / 256)

/-- Split a byte list into rate-sized (136-byte) blocks; fuel-based so that the
kernel can evaluate it. -/
def chunksOf136Go : Nat → List Nat → List (List Nat)
  | 0, _ => []
  | _, [] => []
  | fuel + 1, l => l.take 136 :: chunksOf136Go fuel (l.drop 136)

/-- Split a byte list into 136-byte blocks. -/
def chunksOf136 (l : List Nat) : List (List Nat) := chunksOf136Go (l.length + 1) l

/-- The 17 lanes of one rate block, little-endian per lane. -/
def blockToLanes (block : List Nat) : List Nat :=
  (List.range 17).map (fun i => laneOfBytesLE ((block.drop (8 * i)).take 8))

/-- Absorb one 136-byte block into the sponge state. -/
def absorbBlock (s : List Nat) (block : List Nat) : List Nat :=
  let lanes := blockToLanes block ++ List.replicate 8 0
  (List.range 25).map (fun i => lane s i ^^^ lane lanes i) |> keccakF

/-- Keccak pad10*1 with domain byte 0x01 (original Keccak, as used by Ethereum). -/
def keccakPad (msg : List Nat) : List Nat :=
  let padLen := 136 - msg.length % 136
  if padLen = 1 then msg ++ [0x81]
  else msg ++ [0x01] ++ List.replicate (padLen - 2) 0 ++ [0x80]

/-- Keccak-256 of a byte string: 32-byte digest. -/
def keccak256 (msg : List Nat) : List Nat :=
  let s := (chunksOf136 (keccakPad msg)).foldl absorbBlock (List.replicate 25 0)
  natToBytesLE 8 (lane s 0) ++ natToBytesLE 8 (lane s 1) ++
  natToBytesLE 8 (lane s 2) ++ natToBytesLE 8 (lane s 3)

/-- Constant `KECCAK_EMPTY` of the source: the Keccak-256 digest of the empty
string, stored as a byte-literal constant exactly as the repository does. -/
def KECCAK_EMPTY : List Nat :=
  [0xc5, 0xd2, 0x46, 0x01, 0x86, 0xf7, 0x23, 0x3c, 0x92, 0x7e, 0x7d, 0xb2, 0xdc, 0xc7, 0x03, 0xc0,
   0xe5, 0x00, 0xb6, 0x53, 0xca, 0x82, 0x27, 0x3b, 0x7b, 0xfa, 0xd8, 0x04, 0x5d, 0x85, 0xa4, 0x70]

set_option maxRecDepth 40000 in
/-- Validation of the sponge: the constant `KECCAK_EMPTY` is the digest of the
empty byte string. -/
theorem keccak256_nil_eq : keccak256 [] = KECCAK_EMPTY := by decide

/-! RLP encoding. Modelled from the spec: §6.4 fixes
`rlp([caller_bytes_20, nonce_canonical_u64])` to standard Ethereum RLP; the
implementation in the repository lives in the external `rlp` crate. -/

/-- Minimal big-endian byte string of a number; fuel-based structural recursion,
exact for every `n < 2 ^ 512` (all machine-word and 256-bit inputs). -/
def natToBytesBEGo : Nat → Nat → List Nat
  | 0, _ => []
  | fuel + 1, n => if n = 0 then [] else natToBytesBEGo fuel (n / 256) ++ [n % 256]

/-- Minimal big-endian byte string of a number. -/
def natToBytesBE (n : Nat) : List Nat := natToBytesBEGo 64 n

/-- Fixed-width (`w` bytes) big-endian byte string of a number. -/
def natToBytesBEPad (w n : Nat) : List Nat :=
  List.replicate (w - (natToBytesBE n).length) 0 ++ natToBytesBE n

/-- Big-endian interpretation of a byte list as a number. -/
def bytesToNatBE (bs : List Nat) : Nat := bs.foldl (fun acc b => acc * 256 + b) 0

/-- RLP encoding of a byte string. -/
def rlpEncodeBytes : List Nat → List Nat
  | [b] => if b < 0x80 then [b] else [0x81, b]
  | bs =>
    if bs.length < 56 then (0x80 + bs.length) :: bs
    else
      let lenBytes := natToBytesBE bs.length
      (0xb7 + lenBytes.length) :: lenBytes ++ bs

/-- RLP encoding of a canonical (minimal big-endian) unsigned integer. -/
def rlpEncodeNat (n : Nat) : List Nat := rlpEncodeBytes (natToBytesBE n)

/-- RLP list header prepended to an already-encoded payload. -/
def rlpEncodeListPayload (payload : List Nat) : List Nat :=
  if payload.length < 56 then (0xc0 + payload.length) :: payload
  else
    let lenBytes := natToBytesBE payload.length
    (0xf7 + lenBytes.length) :: lenBytes ++ payload

/-! Contract address derivation, translated from `evm_impl.rs`
(`create_address`, lines 650-657, and `create2_address`, lines 660-670). -/

/-- Source function `create_address`: an RLP stream of the two items
(20-byte caller, canonical nonce) is hashed and the last 20 bytes of the digest
form the new address. -/
def create_address (caller nonce : Nat) : Nat :=
  let stream := rlpEncodeListPayload (rlpEncodeBytes (natToBytesBEPad 20 caller) ++ rlpEncodeNat nonce)
  let out := keccak256 stream
  bytesToNatBE (out.drop 12)

/-- Source function `create2_address`: hash of `0xff`, the 20-byte caller, the
32-byte big-endian salt and the init-code hash; last 20 bytes of the digest. -/
def create2_address (caller : Nat) (code_hash : List Nat) (salt : Nat) : Nat :=
  let temp := natToBytesBEPad 32 salt
  bytesToNatBE ((keccak256 ([0xff] ++ natToBytesBEPad 20 caller ++ temp ++ code_hash)).drop 12)

set_option maxRecDepth 40000 in
/-- Validation vector: `create2_address` reproduces example 1 of EIP-1014
(caller 0, salt 0, init code `0x00`). -/
theorem create2_address_eip1014_example :
    create2_address 0 (keccak256 [0]) 0 = 0x4d1a2e2bb4f88f0250f26ffff098b0b30b26bf38 := by
  decide

set_option maxRecDepth 40000 in
/-- Validation vector: `create_address` of the zero caller at nonce 0 is the
well-known address `0xbd770416a3345f91e4b34576cb804a576fa48eb1`. -/
theorem create_address_zero_nonce0 :
    create_address 0 0 = 0xbd770416a3345f91e4b34576cb804a576fa48eb1 := by decide

/-! Core data model. The `Return` enum, the `Gas` accounting struct, the
journaled `SubRoutine` state and the `Env` structures live in parts of the
repository outside the given sources, so they are modelled from the spec
(§3, §4.3, §6.1, §7). -/

/-- Modelled from the spec: §7 closed tagged union of return reasons
(`Return` enum of the interpreter crate). Only the variants the execution
core uses appear. -/
inductive Ret where
  | Continue
  | Stop
  | Return
  | SelfDestruct
  | Revert
  | CallTooDeep
  | OutOfFund
  | CreateCollision
  | CreateContractWithEF
  | CreateContractLimit
  | OutOfGas
  | Precompile
  | GasMaxFeeGreaterThanPriorityFee
  | GasPriceLessThenBasefee
  | CallerGasLimitMoreThenBlock
  | RejectCallerWithCode
  | LackOfFundForGasLimit
  | OverflowPayment
  | FatalExternalError
deriving DecidableEq, Repr

/-- Modelled from the spec: §4.5 "On success (Return in {Continue, Stop,
Return, SelfDestruct})" — the `return_ok!` macro of the source. -/
def isOkReturn : Ret → Bool
  | .Continue | .Stop | .Return | .SelfDestruct => true
  | _ => false

/-- Modelled from the spec: §3 `AccountInfo` record. `code_hash` is a 32-byte
digest, `code` the byte string (materialised, never missing in the model). -/
structure AccountInfo where
  balance : Nat
  nonce : Nat
  code_hash : List Nat
  code : List Nat
deriving DecidableEq, Repr

/-- Account observed for an address never touched by the database: all-zero
with empty code. -/
def defaultAccount : AccountInfo :=
  { balance := 0, nonce := 0, code_hash := KECCAK_EMPTY, code := [] }

/-- Modelled from the spec: §3 `Log` record. -/
structure Log where
  address : Nat
  topics : List (List Nat)
  data : List Nat
deriving DecidableEq, Repr

/-- Lookup in an association list keyed by address or slot. -/
def assocFind {α : Type} (l : List (Nat × α)) (k : Nat) : Option α :=
  match l.find? (fun p => p.1 == k) with
  | some p => some p.2
  | none => none

/-- Upsert into an association list: replaces in place, appends when new. -/
def assocInsert {α : Type} (l : List (Nat × α)) (k : Nat) (v : α) : List (Nat × α) :=
  match l with
  | [] => [(k, v)]
  | (k0, v0) :: rest => if k0 = k then (k, v) :: rest else (k0, v0) :: assocInsert rest k v

/-- Modelled from the spec: §4.1 Database read interface; only `basic` is
needed by the journaled-state model (storage is tracked at the cache layer,
§4.2, which has its own embedding below). -/
structure Db where
  basic : Nat → Option AccountInfo

/-- Account data the database reports for an address (`None` becomes the
all-zero not-existing marker). -/
def dbAccount (db : Db) (a : Nat) : AccountInfo := (db.basic a).getD defaultAccount

/-- Modelled from the spec: §3/§4.3 journalable part of the transactional
state: the account overlay, the warm set and the log list. A checkpoint is a
snapshot of this record; §4.3 demands that revert restore it exactly. -/
structure JState where
  accounts : List (Nat × AccountInfo)
  warm : List Nat
  logs : List Log
deriving DecidableEq, Repr

/-- Modelled from the spec: §4.3 journaled state (`SubRoutine`): current
journalable state, call depth, and the stack of open checkpoints. -/
structure SubRoutine where
  st : JState
  depth : Nat
  checkpoints : List JState
deriving DecidableEq, Repr

/-- Fresh journaled state at transaction start. -/
def SubRoutine.empty : SubRoutine := { st := ⟨[], [], []⟩, depth := 0, checkpoints := [] }

/-- Modelled from the spec: §4.3 `load_account`: idempotent; fetches via db on
first touch, creating the all-zero marker if absent; returns the was-cold bit
and marks the address warm. -/
def SubRoutine.load_account (sr : SubRoutine) (db : Db) (a : Nat) : SubRoutine × Bool :=
  let cold := ¬ sr.st.warm.contains a
  let warm2 := if sr.st.warm.contains a then sr.st.warm else a :: sr.st.warm
  let accounts2 :=
    match assocFind sr.st.accounts a with
    | some _ => sr.st.accounts
    | none => assocInsert sr.st.accounts a (dbAccount db a)
  ({ sr with st := { sr.st with warm := warm2, accounts := accounts2 } }, cold)

/-- Modelled from the spec: §4.3 `account(addr)` read-only view (callers load
first). -/
def SubRoutine.account (sr : SubRoutine) (a : Nat) : AccountInfo :=
  (assocFind sr.st.accounts a).getD defaultAccount

/-- Modelled from the spec: §4.3 `balance_add`. -/
def SubRoutine.balance_add (sr : SubRoutine) (a : Nat) (v : Nat) : SubRoutine :=
  let acc := sr.account a
  { sr with st := { sr.st with
      accounts := assocInsert sr.st.accounts a { acc with balance := acc.balance + v } } }

/-- Modelled from the spec: §4.3 `balance_sub`: returns false and leaves the
state unchanged when the balance is insufficient. -/
def SubRoutine.balance_sub (sr : SubRoutine) (a : Nat) (v : Nat) : Bool × SubRoutine :=
  let acc := sr.account a
  if acc.balance < v then (false, sr)
  else (true, { sr with st := { sr.st with
      accounts := assocInsert sr.st.accounts a { acc with balance := acc.balance - v } } })

/-- Modelled from the spec: §4.3 `inc_nonce`: returns the nonce before the
increment. -/
def SubRoutine.inc_nonce (sr : SubRoutine) (a : Nat) : Nat × SubRoutine :=
  let acc := sr.account a
  (acc.nonce, { sr with st := { sr.st with
      accounts := assocInsert sr.st.accounts a { acc with nonce := acc.nonce + 1 } } })

/-- Modelled from the spec: §4.3 `transfer`: loads both accounts, checks the
source balance, moves the value atomically; fails with `OutOfFund`. -/
def SubRoutine.transfer (sr : SubRoutine) (db : Db) (src dst value : Nat) :
    Except Ret Unit × SubRoutine :=
  let sr := (sr.load_account db src).1
  let sr := (sr.load_account db dst).1
  let (ok, sr) := sr.balance_sub src value
  if ok then (.ok (), sr.balance_add dst value)
  else (.error .OutOfFund, sr)

/-- Modelled from the spec: §4.3 `set_code` installs code and its hash. -/
def SubRoutine.set_code (sr : SubRoutine) (a : Nat) (code hash : List Nat) : SubRoutine :=
  let acc := sr.account a
  { sr with st := { sr.st with
      accounts := assocInsert sr.st.accounts a { acc with code := code, code_hash := hash } } }

/-- Modelled from the spec: §4.3 `new_contract_acc`: returns false on a
collision (existing non-empty code or non-zero nonce). -/
def SubRoutine.new_contract_acc (sr : SubRoutine) (db : Db) (a : Nat) : Bool × SubRoutine :=
  let sr := (sr.load_account db a).1
  let acc := sr.account a
  if acc.code ≠ [] ∨ acc.nonce ≠ 0 then (false, sr) else (true, sr)

/-- Modelled from the spec: §4.3 `log` appends one entry. -/
def SubRoutine.log (sr : SubRoutine) (l : Log) : SubRoutine :=
  { sr with st := { sr.st with logs := sr.st.logs ++ [l] } }

/-- Modelled from the spec: §4.3 `create_checkpoint` snapshots the journalable
state and enters one nesting level. -/
def SubRoutine.create_checkpoint (sr : SubRoutine) : SubRoutine :=
  { sr with depth := sr.depth + 1, checkpoints := sr.st :: sr.checkpoints }

/-- Modelled from the spec: §4.3 `checkpoint_commit` drops the checkpoint and
leaves one nesting level, keeping all mutations. -/
def SubRoutine.checkpoint_commit (sr : SubRoutine) : SubRoutine :=
  { sr with depth := sr.depth - 1, checkpoints := sr.checkpoints.tail }

/-- Modelled from the spec: §4.3 `checkpoint_revert` restores the snapshot
exactly and leaves one nesting level. -/
def SubRoutine.checkpoint_revert (sr : SubRoutine) : SubRoutine :=
  { sr with depth := sr.depth - 1,
            st := sr.checkpoints.headD sr.st,
            checkpoints := sr.checkpoints.tail }

/-- Account data observed through the journal for an address: the overlay
entry when present, the database account otherwise. Loads preserve this view;
it is the notion of "no state mutation" used by the invariant claims. -/
def effAccount (db : Db) (sr : SubRoutine) (a : Nat) : AccountInfo :=
  (assocFind sr.st.accounts a).getD (dbAccount db a)

/-! Environment, gas accounting and gas constants, modelled from the spec. -/

/-- Modelled from the spec: §9 hard-fork polymorphism. The source parameterises
the handlers over a spec tag with constant `enabled(Fork)` predicates; the
model carries the five fork predicates the execution core consults. -/
structure SpecFlags where
  homestead : Bool
  spuriousDragon : Bool
  istanbul : Bool
  berlin : Bool
  london : Bool
deriving DecidableEq, Repr

/-- Modelled from the spec: §6.1 creation scheme of a transaction. -/
inductive CreateScheme where
  | create
  | create2 (salt : Nat)
deriving DecidableEq, Repr

/-- Modelled from the spec: §6.1 `transact_to`. -/
inductive TransactTo where
  | call (address : Nat)
  | create (scheme : CreateScheme)
deriving DecidableEq, Repr

/-- Modelled from the spec: §6.1 block environment (fields the core reads). -/
structure BlockEnv where
  coinbase : Nat
  gas_limit : Nat
  basefee : Nat
deriving DecidableEq, Repr

/-- Modelled from the spec: §6.1 transaction environment. -/
structure TxEnv where
  caller : Nat
  gas_price : Nat
  gas_priority_fee : Option Nat
  gas_limit : Nat
  transact_to : TransactTo
  value : Nat
  data : List Nat
  access_list : List (Nat × List Nat)
deriving DecidableEq, Repr

/-- Modelled from the spec: §6.1 environment object. -/
structure Env where
  block : BlockEnv
  tx : TxEnv
deriving DecidableEq, Repr

/-- Modelled from the spec: §4.4.1(2): the effective gas price is
`min(max_fee, base_fee + priority_fee)` when a priority fee is supplied, and
the plain gas price for legacy transactions (§9: on pre-1559 transactions the
difference to `gas_price` is zero). -/
def Env.effective_gas_price (env : Env) : Nat :=
  match env.tx.gas_priority_fee with
  | none => env.tx.gas_price
  | some p => min env.tx.gas_price (env.block.basefee + p)

/-- Modelled from the spec: glossary/§4.4 gas bookkeeping (`Gas` struct):
limit, spent amount and the refund accumulator. -/
structure Gas where
  limit : Nat
  used : Nat
  refunded : Nat
deriving DecidableEq, Repr

/-- Fresh gas record for a frame limit. -/
def Gas.new (l : Nat) : Gas := { limit := l, used := 0, refunded := 0 }

/-- Gas still available to the frame. -/
def Gas.remaining (g : Gas) : Nat := g.limit - g.used

/-- Gas spent so far (source name `spend`). -/
def Gas.spend (g : Gas) : Nat := g.used

/-- Modelled from the spec: charging gas fails, leaving the record unchanged,
when the cost does not fit in the remaining budget. -/
def Gas.record_cost (g : Gas) (cost : Nat) : Bool × Gas :=
  if g.limit < g.used + cost then (false, g)
  else (true, { g with used := g.used + cost })

/-- Modelled from the spec: §7 gas reimbursement on non-fatal completion: on a
successful inner frame the unspent gas and the refund counter flow back; on
`Revert` only the unspent gas does; otherwise everything stays consumed. -/
def Gas.reimburse_unspend (g : Gas) (reason : Ret) (other : Gas) : Gas :=
  if isOkReturn reason then
    { g with used := g.used - other.remaining, refunded := g.refunded + other.refunded }
  else if reason = .Revert then { g with used := g.used - other.remaining }
  else g

/-- Modelled from the spec: gas constant, zero data byte cost (§4.4.1(4)). -/
def TRANSACTION_ZERO_DATA : Nat := 4

/-- Modelled from the spec: gas constant, access-list address cost (§4.4.1(4)). -/
def ACCESS_LIST_ADDRESS : Nat := 2400

/-- Modelled from the spec: gas constant, access-list storage-slot cost
(§4.4.1(4)). -/
def ACCESS_LIST_STORAGE_KEY : Nat := 1900

/-- Modelled from the spec: gas constant, per-byte code-deposit cost (§4.5). -/
def CODEDEPOSIT : Nat := 200

/-- Modelled from the spec: §3 invariant `depth ≤ 1024` (interpreter constant
`CALL_STACK_LIMIT`). -/
def CALL_STACK_LIMIT : Nat := 1024

/-! The execution pipeline, translated from `evm_impl.rs`. -/

/-- Gas amount of the source function `initialization` (lines 242-291), with
`USE_GAS = true`: base cost (53000 for creation under Homestead, 21000
otherwise), per-byte data costs, and Berlin access-list costs. -/
def initialization_gas (flags : SpecFlags) (tx : TxEnv) : Nat :=
  let is_create : Bool := match tx.transact_to with | .create _ => true | .call _ => false
  let zero_data_len := (tx.data.filter (fun v => v == 0)).length
  let non_zero_data_len := tx.data.length - zero_data_len
  let accessed_accounts := if flags.berlin then tx.access_list.length else 0
  let accessed_slots := if flags.berlin then (tx.access_list.map (fun p => p.2.length)).sum else 0
  let transact := if is_create then (if flags.homestead then 53000 else 21000) else 21000
  let gas_transaction_non_zero_data := if flags.istanbul then 16 else 68
  transact
    + zero_data_len * TRANSACTION_ZERO_DATA
    + non_zero_data_len * gas_transaction_non_zero_data
    + accessed_accounts * ACCESS_LIST_ADDRESS
    + accessed_slots * ACCESS_LIST_STORAGE_KEY

/-- State effect of the source function `initialization`: under Berlin the
access-list accounts are loaded (made warm). Slot warming is invisible to this
model, which does not track storage inside the journal. -/
def warmAccessList (flags : SpecFlags) (db : Db) (tx : TxEnv) (sr : SubRoutine) : SubRoutine :=
  if flags.berlin then tx.access_list.foldl (fun s p => (s.load_account db p.1).1) sr
  else sr

/-- Bool test of the source check `priority_fee > tx.gas_price` guarded by the
presence of a priority fee. -/
def priorityFeeTooHigh (env : Env) : Bool :=
  match env.tx.gas_priority_fee with
  | some p => env.tx.gas_price < p
  | none => false

/-- Pre-flight phase of the source function `transact` (lines 42-103),
factored out of the early-return chain: each listed check aborts with its
error; on success the journal holds the debited caller and the gas record
holds the intrinsic charge. -/
def preflight (flags : SpecFlags) (db : Db) (env : Env) (sr0 : SubRoutine) :
    Except Ret (SubRoutine × Gas) :=
  let gas_limit := env.tx.gas_limit
  if flags.london && priorityFeeTooHigh env then .error .GasMaxFeeGreaterThanPriorityFee
  else if flags.london && decide (env.effective_gas_price < env.block.basefee) then
    .error .GasPriceLessThenBasefee
  else if env.block.gas_limit < gas_limit then .error .CallerGasLimitMoreThenBlock
  else
    let gas := Gas.new gas_limit
    let sr := warmAccessList flags db env.tx sr0
    let (ok, gas) := gas.record_cost (initialization_gas flags env.tx)
    if ¬ ok then .error .OutOfGas
    else
      let (sr, _) := sr.load_account db env.tx.caller
      if (sr.account env.tx.caller).code_hash ≠ KECCAK_EMPTY then .error .RejectCallerWithCode
      else
        let payment := gas_limit * env.effective_gas_price
        if payment < 2 ^ 256 then
          let (ok2, sr) := sr.balance_sub env.tx.caller payment
          if ¬ ok2 then .error .LackOfFundForGasLimit
          else
            let difference := env.tx.gas_price - env.effective_gas_price
            if (sr.account env.tx.caller).balance < difference + env.tx.value then
              .error .OutOfFund
            else .ok (sr, gas)
        else .error .OverflowPayment

/-- Outcome of one interpreter run, used as an oracle: the interpreter itself
(opcode dispatch) is out of scope for the spec (§1); the handlers only consume
its return reason, return bytes, final gas record and state effect. -/
structure InterpOracle where
  reason : Ret
  retval : List Nat
  gas : Gas
  effect : JState → JState

/-- Modelled from the spec: §6.5 output of a successful precompile call. -/
structure PrecompileOut where
  output : List Nat
  cost : Nat
  logs : List Log

/-- Input record of the create handler (source struct `CreateInputs`). -/
structure CreateInputs where
  caller : Nat
  scheme : CreateScheme
  value : Nat
  init_code : List Nat
  gas_limit : Nat
deriving DecidableEq, Repr

/-- Call context of the source (`CallContext`). -/
structure CallContext where
  caller : Nat
  address : Nat
  apparent_value : Nat
deriving DecidableEq, Repr

/-- Value transfer of a call frame (source struct `Transfer`). -/
structure TransferInputs where
  source : Nat
  target : Nat
  value : Nat
deriving DecidableEq, Repr

/-- Input record of the call handler (source struct `CallInputs`). -/
structure CallInputs where
  contract : Nat
  transfer : TransferInputs
  input : List Nat
  gas_limit : Nat
  context : CallContext
deriving DecidableEq, Repr

/-- Host `balance` (source lines 574-578): load the account, read its balance. -/
def balanceHost (sr : SubRoutine) (db : Db) (a : Nat) : Nat × SubRoutine :=
  let sr := (sr.load_account db a).1
  ((sr.account a).balance, sr)

/-- Phase of the source function `create_inner` (lines 293-376) before the
interpreter runs, factored out of the early-return chain: depth and balance
checks (no address derived yet), nonce increment, address derivation, account
load, checkpoint, collision check and value transfer. `inl` carries a finished
result, `inr` the state handed to the interpreter together with the created
address. -/
def create_prep (flags : SpecFlags) (db : Db) (inputs : CreateInputs) (sr : SubRoutine) :
    ((Ret × Option Nat × Gas × List Nat) × SubRoutine) ⊕ (SubRoutine × Nat) :=
  let gas := Gas.new inputs.gas_limit
  let sr := (sr.load_account db inputs.caller).1
  if CALL_STACK_LIMIT < sr.depth then .inl ((.CallTooDeep, none, gas, []), sr)
  else
    let (bal, sr) := balanceHost sr db inputs.caller
    if bal < inputs.value then .inl ((.OutOfFund, none, gas, []), sr)
    else
      let (old_nonce, sr) := sr.inc_nonce inputs.caller
      let code_hash := keccak256 inputs.init_code
      let created_address :=
        match inputs.scheme with
        | .create => create_address inputs.caller old_nonce
        | .create2 salt => create2_address inputs.caller code_hash salt
      let sr := (sr.load_account db created_address).1
      let sr := sr.create_checkpoint
      let (ok, sr) := sr.new_contract_acc db created_address
      if ¬ ok then .inl ((.CreateCollision, some created_address, gas, []), sr.checkpoint_revert)
      else
        match sr.transfer db inputs.caller created_address inputs.value with
        | (.error e, sr) => .inl ((e, some created_address, gas, []), sr.checkpoint_revert)
        | (.ok _, sr) =>
          let sr := if flags.istanbul then (sr.inc_nonce created_address).2 else sr
          .inr (sr, created_address)

/-- Phase of the source function `create_inner` (lines 376-424) from the
interpreter run onwards: on success the London 0xEF gate, the Spurious-Dragon
size gate and the code-deposit charge apply in that order, then the checkpoint
is committed and the code installed; on interpreter failure the checkpoint is
reverted and the interpreter's reason and bytes surface. -/
def create_finish (flags : SpecFlags) (oracle : InterpOracle) (sr : SubRoutine)
    (created_address : Nat) : (Ret × Option Nat × Gas × List Nat) × SubRoutine :=
  let sr := { sr with st := oracle.effect sr.st }
  if isOkReturn oracle.reason then
    let code := oracle.retval
    if flags.london && decide (code ≠ []) && decide (code.head? = some 0xEF) then
      ((.CreateContractWithEF, some created_address, oracle.gas, []), sr.checkpoint_revert)
    else if flags.spuriousDragon && decide (0x6000 < code.length) then
      ((.CreateContractLimit, some created_address, oracle.gas, []), sr.checkpoint_revert)
    else
      let gas_for_code := code.length * CODEDEPOSIT
      let (ok, g) := oracle.gas.record_cost gas_for_code
      if ¬ ok then ((.OutOfGas, some created_address, g, []), sr.checkpoint_revert)
      else
        let sr := sr.checkpoint_commit
        let code_hash := keccak256 code
        let sr := sr.set_code created_address code code_hash
        ((.Continue, some created_address, g, []), sr)
  else ((oracle.reason, some created_address, oracle.gas, oracle.retval), sr.checkpoint_revert)

/-- Source function `create_inner` (lines 293-432) with `INSPECT = false`:
the pre-interpreter phase followed, when it gets that far, by the interpreter
run and the output gates. -/
def create_inner (flags : SpecFlags) (db : Db) (oracle : InterpOracle)
    (inputs : CreateInputs) (sr : SubRoutine) : (Ret × Option Nat × Gas × List Nat) × SubRoutine :=
  match create_prep flags db inputs sr with
  | .inl out => out
  | .inr (sr, created_address) => create_finish flags oracle sr created_address

/-- Phase of the source function `call_inner` (lines 434-484) before the
precompile or interpreter dispatch, factored out of the early-return chain:
code load, depth check, checkpoint, EIP-158 touch on zero-value transfers,
value transfer. `inl` carries a finished result, `inr` the state handed to
the dispatch. -/
def call_prep (db : Db) (inputs : CallInputs) (sr : SubRoutine) :
    ((Ret × Gas × List Nat) × SubRoutine) ⊕ SubRoutine :=
  let gas := Gas.new inputs.gas_limit
  let sr := (sr.load_account db inputs.contract).1
  if CALL_STACK_LIMIT < sr.depth then .inl ((.CallTooDeep, gas, []), sr)
  else
    let sr := sr.create_checkpoint
    let sr :=
      if inputs.transfer.value = 0 then
        let sr := (sr.load_account db inputs.context.address).1
        sr.balance_add inputs.context.address 0
      else sr
    match sr.transfer db inputs.transfer.source inputs.transfer.target inputs.transfer.value with
    | (.error e, sr) => .inl ((e, gas, []), sr.checkpoint_revert)
    | (.ok _, sr) => .inr sr

/-- Source function `call_inner` (lines 434-540) with `INSPECT = false` and
`USE_GAS = true`. The precompile registry enters as the address list
`precompiles`; the behaviour of a matched precompile enters as the oracle
`pOracle` (§6.5), the interpreter as `iOracle`. -/
def call_inner (_flags : SpecFlags) (db : Db) (precompiles : List Nat)
    (pOracle : Except Unit PrecompileOut) (iOracle : InterpOracle)
    (inputs : CallInputs) (sr : SubRoutine) : (Ret × Gas × List Nat) × SubRoutine :=
  match call_prep db inputs sr with
  | .inl out => out
  | .inr sr =>
    let gas := Gas.new inputs.gas_limit
    if precompiles.contains inputs.contract then
      match pOracle with
      | .ok pout =>
        let (ok, gas) := gas.record_cost pout.cost
        if ok then
          let sr := pout.logs.foldl SubRoutine.log sr
          ((.Continue, gas, pout.output), sr.checkpoint_commit)
        else ((.OutOfGas, gas, []), sr.checkpoint_revert)
      | .error _ => ((.Precompile, gas, []), sr.checkpoint_revert)
    else
      let sr := { sr with st := iOracle.effect sr.st }
      if isOkReturn iOracle.reason then
        ((iOracle.reason, iOracle.gas, iOracle.retval), sr.checkpoint_commit)
      else
        ((iOracle.reason, iOracle.gas, iOracle.retval), sr.checkpoint_revert)

/-- Source function `finalize` (lines 190-236) with `USE_GAS = true` and
`perf_all_precompiles_have_balance = false`: refund capping (EIP-3529),
caller reimbursement, coinbase payment, then the journal drains into the state
diff and log list. -/
def finalize (flags : SpecFlags) (db : Db) (env : Env) (caller : Nat) (gas : Gas)
    (sr : SubRoutine) : List (Nat × AccountInfo) × List Log × Nat :=
  let coinbase := env.block.coinbase
  let effective_gas_price := env.effective_gas_price
  let basefee := env.block.basefee
  let max_refund_quotient := if flags.london then 5 else 2
  let gas_refunded := min gas.refunded (gas.spend / max_refund_quotient)
  let sr := sr.balance_add caller (effective_gas_price * (gas.remaining + gas_refunded))
  let coinbase_gas_price :=
    if flags.london then effective_gas_price - basefee else effective_gas_price
  let sr := (sr.load_account db coinbase).1
  let sr := sr.balance_add coinbase (coinbase_gas_price * (gas.spend - gas_refunded))
  let gas_used := gas.spend - gas_refunded
  (sr.st.accounts, sr.st.logs, gas_used)

/-- Modelled from the spec: §6.2 transaction output variants. -/
inductive TransactOut where
  | none
  | call (bytes : List Nat)
  | create (bytes : List Nat) (address : Option Nat)
deriving DecidableEq, Repr

/-- Source function `transact` (lines 42-153): pre-flight validation with the
empty early exit, nonce bump and dispatch to the call or create handler, gas
reimbursement, and finalisation. -/
def transact (flags : SpecFlags) (db : Db) (precompiles : List Nat)
    (pOracle : Except Unit PrecompileOut) (iOracle : InterpOracle)
    (env : Env) (sr0 : SubRoutine) :
    Ret × TransactOut × Nat × List (Nat × AccountInfo) × List Log :=
  match preflight flags db env sr0 with
  | .error reason => (reason, .none, 0, [], [])
  | .ok (sr, gas) =>
    let caller := env.tx.caller
    let value := env.tx.value
    let data := env.tx.data
    let gas_limit := gas.remaining
    let gas := (gas.record_cost gas_limit).2
    let (exit_reason, ret_gas, out, sr) :=
      match env.tx.transact_to with
      | .call address =>
        let (_, sr) := sr.inc_nonce caller
        let inputs : CallInputs :=
          { contract := address,
            transfer := { source := caller, target := address, value := value },
            input := data,
            gas_limit := gas_limit,
            context := { caller := caller, address := address, apparent_value := value } }
        let ((exit, rgas, bytes), sr) := call_inner flags db precompiles pOracle iOracle inputs sr
        (exit, rgas, TransactOut.call bytes, sr)
      | .create scheme =>
        let inputs : CreateInputs :=
          { caller := caller, scheme := scheme, value := value,
            init_code := data, gas_limit := gas_limit }
        let ((exit, address, rgas, bytes), sr) := create_inner flags db iOracle inputs sr
        (exit, rgas, TransactOut.create bytes address, sr)
    let gas := gas.reimburse_unspend exit_reason ret_gas
    let (state, logs, gas_used) := finalize flags db env caller gas sr
    (exit_reason, out, gas_used, state, logs)

/-! Cache overlay, translated from `db/in_memory_db.rs`. -/

/-- Source enum `AccountState` (in_memory_db.rs lines 79-92). -/
inductive AccountState where
  | NotExisting
  | Touched
  | StorageCleared
  | None
deriving DecidableEq, Repr

/-- Source struct `DbAccount` (lines 30-37): info, state tag, storage slots. -/
structure DbAccount where
  info : AccountInfo
  account_state : AccountState
  storage : List (Nat × Nat)
deriving DecidableEq, Repr

/-- Source constructor `DbAccount::new_not_existing` (lines 40-45). -/
def DbAccount.new_not_existing : DbAccount :=
  { info := defaultAccount, account_state := .NotExisting, storage := [] }

/-- Source conversion `From<Option<AccountInfo>> for DbAccount` (lines 55-67). -/
def DbAccount.ofOptionInfo : Option AccountInfo → DbAccount
  | some info => { info := info, account_state := .None, storage := [] }
  | none => DbAccount.new_not_existing

/-- Backing database behind the cache (`ExtDB: DatabaseRef` of the source),
with a backend-specific error type; only the operations the storage reads use. -/
structure ExtDB (ε : Type) where
  basic : Nat → Except ε (Option AccountInfo)
  storage : Nat → Nat → Except ε Nat

/-- Source struct `CacheDB` (lines 19-28), restricted to the fields the
storage reads touch. -/
structure CacheDB (ε : Type) where
  accounts : List (Nat × DbAccount)
  db : ExtDB ε

/-- True for the two state tags whose storage misses resolve to zero
(`AccountState::StorageCleared | AccountState::NotExisting`). -/
def AccountState.clearedOrNotExisting : AccountState → Bool
  | .StorageCleared => true
  | .NotExisting => true
  | _ => false

/-- Source method `Database::storage for CacheDB` (lines 232-267), the
mutating flavour that caches misses: returns the value and the updated cache. -/
def CacheDB.storage {ε : Type} (c : CacheDB ε) (address index : Nat) :
    Except ε (Nat × CacheDB ε) :=
  match assocFind c.accounts address with
  | some acc =>
    match assocFind acc.storage index with
    | some v => .ok (v, c)
    | none =>
      if acc.account_state.clearedOrNotExisting then .ok (0, c)
      else
        match c.db.storage address index with
        | .error e => .error e
        | .ok slot =>
          let acc2 := { acc with storage := assocInsert acc.storage index slot }
          .ok (slot, { c with accounts := assocInsert c.accounts address acc2 })
  | none =>
    match c.db.basic address with
    | .error e => .error e
    | .ok (some info) =>
      match c.db.storage address index with
      | .error e => .error e
      | .ok v =>
        let acc2 : DbAccount := { info := info, account_state := .None, storage := [(index, v)] }
        .ok (v, { c with accounts := assocInsert c.accounts address acc2 })
    | .ok none =>
      .ok (0, { c with accounts := assocInsert c.accounts address DbAccount.new_not_existing })

/-- Source method `DatabaseRef::storage for CacheDB` (lines 290-307), the
reference flavour that never caches. -/
def CacheDB.storageRef {ε : Type} (c : CacheDB ε) (address index : Nat) : Except ε Nat :=
  match assocFind c.accounts address with
  | some acc =>
    match assocFind acc.storage index with
    | some v => .ok v
    | none =>
      if acc.account_state.clearedOrNotExisting then .ok 0
      else c.db.storage address index
  | none => c.db.storage address index

/-! Helper lemmas about the association-list state. -/

theorem assocFind_insert_self {α : Type} (l : List (Nat × α)) (k : Nat) (v : α) :
    assocFind (assocInsert l k v) k = some v := by
  induction l with
  | nil => simp [assocInsert, assocFind]
  | cons p rest ih =>
    obtain ⟨k0, v0⟩ := p
    by_cases h : k0 = k
    · simp [assocInsert, h, assocFind]
    · simp [assocInsert, h, assocFind, List.find?]
      simp [assocFind] at ih
      simpa [h] using ih

theorem assocFind_insert_ne {α : Type} (l : List (Nat × α)) (k k' : Nat) (v : α)
    (h : k' ≠ k) : assocFind (assocInsert l k v) k' = assocFind l k' := by
  induction l with
  | nil => simp [assocInsert, assocFind, List.find?, Ne.symm h, beq_false_of_ne]
  | cons p rest ih =>
    obtain ⟨k0, v0⟩ := p
    by_cases h0 : k0 = k
    · subst h0
      simp [assocInsert, assocFind, List.find?, beq_false_of_ne (Ne.symm h)]
    · simp only [assocInsert, if_neg h0]
      by_cases h1 : k0 = k'
      · subst h1
        simp [assocFind, List.find?]
      · simp only [assocFind, List.find?] at ih ⊢
        have : (k0 == k') = false := beq_false_of_ne (fun hh => h1 hh)
        simp [this] at ih ⊢
        exact ih

/-- Loading an account materialises it in the overlay with its effective data. -/
theorem load_account_find (sr : SubRoutine) (db : Db) (a : Nat) :
    assocFind ((sr.load_account db a).1).st.accounts a = some (effAccount db sr a) := by
  unfold SubRoutine.load_account effAccount
  cases h : assocFind sr.st.accounts a with
  | some acc => simp [h]
  | none => simp [h, assocFind_insert_self]

/-- Loading an account does not change the effective data of any address. -/
theorem load_account_effAccount (sr : SubRoutine) (db : Db) (a b : Nat) :
    effAccount db ((sr.load_account db a).1) b = effAccount db sr b := by
  unfold SubRoutine.load_account effAccount
  cases h : assocFind sr.st.accounts a with
  | some acc => simp [h]
  | none =>
    by_cases hb : b = a
    · subst hb
      simp [h, assocFind_insert_self]
    · simp [h, assocFind_insert_ne _ _ _ _ hb]

/-- Loading an account changes neither the depth, the checkpoints, nor the logs. -/
theorem load_account_frame (sr : SubRoutine) (db : Db) (a : Nat) :
    ((sr.load_account db a).1).depth = sr.depth ∧
    ((sr.load_account db a).1).checkpoints = sr.checkpoints ∧
    ((sr.load_account db a).1).st.logs = sr.st.logs := by
  unfold SubRoutine.load_account
  cases h : assocFind sr.st.accounts a <;> simp [h]

/-! Claim theorems. -/

/-- C4: for every caller and nonce, `create_address` equals the last 20 bytes
of `keccak256(rlp([caller, nonce]))`; for every caller, init-code hash and
salt, `create2_address` equals the last 20 bytes of
`keccak256(0xFF ++ caller ++ salt_be32 ++ code_hash)`; both are pure functions
of their inputs (bit-exactness is validated against EIP-1014 by
`create2_address_eip1014_example` and `create_address_zero_nonce0`). -/
theorem create_address_formulae (caller nonce : Nat) (code_hash : List Nat) (salt : Nat) :
    create_address caller nonce =
      bytesToNatBE ((keccak256 (rlpEncodeListPayload
        (rlpEncodeBytes (natToBytesBEPad 20 caller) ++ rlpEncodeNat nonce))).drop 12) ∧
    create2_address caller code_hash salt =
      bytesToNatBE ((keccak256 ([0xff] ++ natToBytesBEPad 20 caller
        ++ natToBytesBEPad 32 salt ++ code_hash)).drop 12) ∧
    (∀ c2 n2, c2 = caller → n2 = nonce → create_address c2 n2 = create_address caller nonce) ∧
    (∀ c2 h2 s2, c2 = caller → h2 = code_hash → s2 = salt →
      create2_address c2 h2 s2 = create2_address caller code_hash salt) := by
  refine ⟨rfl, rfl, ?_, ?_⟩
  · intro c2 n2 hc hn
    rw [hc, hn]
  · intro c2 h2 s2 hc hh hs
    rw [hc, hh, hs]

/-- Witness for C4 at a concrete input. -/
theorem create_address_formulae_witness :
    create_address 7 3 =
      bytesToNatBE ((keccak256 (rlpEncodeListPayload
        (rlpEncodeBytes (natToBytesBEPad 20 7) ++ rlpEncodeNat 3))).drop 12) ∧
    create_address 7 3 = create_address 7 3 := by
  refine ⟨(create_address_formulae 7 3 [] 0).1, ?_⟩
  exact (create_address_formulae 7 3 [] 0).2.2.1 7 3 rfl rfl

/-- C9: for every `CacheDB` account whose state tag is `StorageCleared` or
`NotExisting`, a storage read of a slot missing from the cached storage map
returns zero without consulting the backing database, in both the mutating
and the reference flavour; the result and the unchanged cache are the same
for every backing database. -/
theorem cacheDB_cleared_miss_is_zero {ε : Type} (c : CacheDB ε) (address index : Nat)
    (acc : DbAccount)
    (hacc : assocFind c.accounts address = some acc)
    (hstate : acc.account_state = .StorageCleared ∨ acc.account_state = .NotExisting)
    (hmiss : assocFind acc.storage index = none) :
    c.storage address index = .ok (0, c) ∧
    c.storageRef address index = .ok 0 ∧
    (∀ db2 : ExtDB ε,
      CacheDB.storage { accounts := c.accounts, db := db2 } address index =
        .ok (0, { accounts := c.accounts, db := db2 }) ∧
      CacheDB.storageRef { accounts := c.accounts, db := db2 } address index = .ok 0) := by
  have htag : acc.account_state.clearedOrNotExisting = true := by
    rcases hstate with h | h <;> simp [h, AccountState.clearedOrNotExisting]
  refine ⟨?_, ?_, ?_⟩
  · simp [CacheDB.storage, hacc, hmiss, htag]
  · simp [CacheDB.storageRef, hacc, hmiss, htag]
  · intro db2
    constructor
    · simp [CacheDB.storage, hacc, hmiss, htag]
    · simp [CacheDB.storageRef, hacc, hmiss, htag]

/-- Concrete cache for the C9 witness: one cached account with cleared storage
over a backing database that fails on every query. -/
def witnessCache : CacheDB Unit :=
  { accounts := [(1, { info := defaultAccount, account_state := .StorageCleared, storage := [(2, 77)] })],
    db := { basic := fun _ => .error (), storage := fun _ _ => .error () } }

/-- Witness for C9 at a concrete input: the read misses slot 5 of account 1 and
returns zero even though every backing-database query fails. -/
theorem cacheDB_cleared_miss_is_zero_witness :
    witnessCache.storage 1 5 = .ok (0, witnessCache) ∧
    witnessCache.storageRef 1 5 = .ok 0 := by
  have h := cacheDB_cleared_miss_is_zero witnessCache 1 5
    { info := defaultAccount, account_state := .StorageCleared, storage := [(2, 77)] }
    (by decide) (Or.inl rfl) (by decide)
  exact ⟨h.1, h.2.1⟩

/-- C1: whenever pre-flight validation fails, the failure is one of the eight
pre-flight errors and `transact` returns that reason with no output
(`TransactOut.none`), zero gas used, an empty state diff and an empty log
list. -/
theorem transact_preflight_exit (flags : SpecFlags) (db : Db) (precompiles : List Nat)
    (pOracle : Except Unit PrecompileOut) (iOracle : InterpOracle) (env : Env)
    (sr0 : SubRoutine) (r : Ret)
    (h : preflight flags db env sr0 = .error r) :
    r ∈ [Ret.GasMaxFeeGreaterThanPriorityFee, Ret.GasPriceLessThenBasefee,
         Ret.CallerGasLimitMoreThenBlock, Ret.OutOfGas, Ret.RejectCallerWithCode,
         Ret.LackOfFundForGasLimit, Ret.OverflowPayment, Ret.OutOfFund] ∧
    transact flags db precompiles pOracle iOracle env sr0 = (r, .none, 0, [], []) := by
  constructor
  · unfold preflight at h
    repeat' first
      | split at h
      | simp only [Gas.record_cost, Gas.new, SubRoutine.balance_sub] at h
    all_goals simp_all
  · unfold transact
    rw [h]

/-- Concrete fixtures for witnesses: all forks enabled. -/
def wFlagsLondon : SpecFlags :=
  { homestead := true, spuriousDragon := true, istanbul := true, berlin := true, london := true }

/-- Concrete fixtures for witnesses: no fork enabled. -/
def wFlagsFrontier : SpecFlags :=
  { homestead := false, spuriousDragon := false, istanbul := false, berlin := false, london := false }

/-- Concrete fixtures for witnesses: database with no accounts. -/
def wDbEmpty : Db := { basic := fun _ => none }

/-- Concrete fixtures for witnesses: an interpreter oracle that stops
immediately with empty output. -/
def wOracleStop : InterpOracle :=
  { reason := .Stop, retval := [], gas := Gas.new 0, effect := id }

/-- Concrete fixtures for witnesses: transaction env whose priority fee 5
exceeds its max fee 1. -/
def wEnvBadPriority : Env :=
  { block := { coinbase := 9, gas_limit := 1000000, basefee := 0 },
    tx := { caller := 1, gas_price := 1, gas_priority_fee := some 5, gas_limit := 50000,
            transact_to := .call 2, value := 0, data := [], access_list := [] } }

/-- Witness for C1 at a concrete input: the priority fee 5 exceeds the max fee
1 under London, and `transact` returns the empty exit tuple. -/
theorem transact_preflight_exit_witness :
    preflight wFlagsLondon wDbEmpty wEnvBadPriority SubRoutine.empty =
      .error .GasMaxFeeGreaterThanPriorityFee ∧
    transact wFlagsLondon wDbEmpty [] (.error ()) wOracleStop wEnvBadPriority SubRoutine.empty =
      (.GasMaxFeeGreaterThanPriorityFee, .none, 0, [], []) := by
  have h : preflight wFlagsLondon wDbEmpty wEnvBadPriority SubRoutine.empty =
      .error .GasMaxFeeGreaterThanPriorityFee := rfl
  exact ⟨h, (transact_preflight_exit wFlagsLondon wDbEmpty [] (.error ()) wOracleStop
    wEnvBadPriority SubRoutine.empty .GasMaxFeeGreaterThanPriorityFee h).2⟩

/-- Whether the transaction is a creation (source `is_create`). -/
def isCreateTx (tx : TxEnv) : Bool :=
  match tx.transact_to with | .create _ => true | .call _ => false

/-- Intrinsic gas exactly as claim C3 words it: 53000 for creation under
Homestead else 21000, 4 per zero data byte, 68 per non-zero data byte
(16 under Istanbul), and under Berlin 2400 per access-list address plus 1900
per access-list storage slot. -/
def specIntrinsicGas (data : List Nat) (access_list : List (Nat × List Nat))
    (flags : SpecFlags) (is_create : Bool) : Nat :=
  (if is_create = true ∧ flags.homestead = true then 53000 else 21000)
    + 4 * (data.filter (fun b => b == 0)).length
    + (if flags.istanbul then 16 else 68) * (data.filter (fun b => !(b == 0))).length
    + (if flags.berlin then
        2400 * access_list.length + 1900 * (access_list.map (fun p => p.2.length)).sum
      else 0)

theorem filter_zero_length_split (data : List Nat) :
    (data.filter (fun b => b == 0)).length + (data.filter (fun b => !(b == 0))).length
      = data.length := by
  induction data with
  | nil => simp
  | cons b rest ih =>
    by_cases h : b = 0 <;> simp [h] at ih ⊢ <;> omega

/-- C3: the intrinsic gas charged before execution is the pure function of
`(data, access_list, spec, is_create)` given in the claim, and — once the
London fee checks and the block-gas-limit check pass — pre-flight fails with
`OutOfGas` exactly when that amount exceeds the transaction gas limit. -/
theorem intrinsic_gas_exact (flags : SpecFlags) (db : Db) (env : Env) (sr0 : SubRoutine)
    (h1 : (flags.london && priorityFeeTooHigh env) = false)
    (h2 : (flags.london && decide (env.effective_gas_price < env.block.basefee)) = false)
    (h3 : env.tx.gas_limit ≤ env.block.gas_limit) :
    initialization_gas flags env.tx =
      specIntrinsicGas env.tx.data env.tx.access_list flags (isCreateTx env.tx) ∧
    (preflight flags db env sr0 = .error .OutOfGas ↔
      env.tx.gas_limit < initialization_gas flags env.tx) := by
  have hng : ¬ (env.block.gas_limit < env.tx.gas_limit) := Nat.not_lt.mpr h3
  constructor
  · have hsplit := filter_zero_length_split env.tx.data
    unfold initialization_gas specIntrinsicGas isCreateTx
    cases htt : env.tx.transact_to
    all_goals cases hh : flags.homestead
    all_goals cases hi : flags.istanbul
    all_goals cases hb : flags.berlin
    all_goals (try simp [hh, hi, hb, TRANSACTION_ZERO_DATA, ACCESS_LIST_ADDRESS,
      ACCESS_LIST_STORAGE_KEY] at hsplit ⊢)
    all_goals omega
  · by_cases hog : env.tx.gas_limit < initialization_gas flags env.tx
    · constructor
      · intro _
        exact hog
      · intro _
        unfold preflight
        simp [h1, h2, hng, Gas.record_cost, Gas.new, hog]
    · constructor
      · intro h
        exfalso
        unfold preflight at h
        simp [h1, h2, hng, Gas.record_cost, Gas.new, hog] at h
        repeat' first
          | split at h
          | simp only [SubRoutine.balance_sub] at h
        all_goals simp_all
      · intro h
        exact absurd h hog

/-- Concrete fixtures for witnesses: scenario S1 of the spec (gas limit 20999,
plain call, empty data) on a pre-fork chain. -/
def wEnvS1 : Env :=
  { block := { coinbase := 9, gas_limit := 1000000, basefee := 0 },
    tx := { caller := 1, gas_price := 0, gas_priority_fee := none, gas_limit := 20999,
            transact_to := .call 2, value := 0, data := [], access_list := [] } }

/-- Witness for C3 at scenario S1: intrinsic gas 21000 exceeds the limit 20999
and pre-flight fails with `OutOfGas`. -/
theorem intrinsic_gas_exact_witness :
    initialization_gas wFlagsFrontier wEnvS1.tx =
      specIntrinsicGas wEnvS1.tx.data wEnvS1.tx.access_list wFlagsFrontier
        (isCreateTx wEnvS1.tx) ∧
    (preflight wFlagsFrontier wDbEmpty wEnvS1 SubRoutine.empty = .error .OutOfGas ↔
      wEnvS1.tx.gas_limit < initialization_gas wFlagsFrontier wEnvS1.tx) :=
  intrinsic_gas_exact wFlagsFrontier wDbEmpty wEnvS1 SubRoutine.empty
    (by decide) (by decide) (by decide)

/-- C6: once the fee checks, the intrinsic-gas check, the caller-code check
and the `gas_limit * effective_gas_price` debit succeed, pre-flight fails with
`OutOfFund` exactly when `(tx.gas_price − effective_gas_price) + tx.value`
exceeds the caller's post-debit balance; for a legacy transaction (no priority
fee — the only kind existing on a pre-London chain) the difference term is
zero, so the check compares `tx.value` against the post-debit balance. -/
theorem outoffund_check (flags : SpecFlags) (db : Db) (env : Env) (sr0 : SubRoutine)
    (h1 : (flags.london && priorityFeeTooHigh env) = false)
    (h2 : (flags.london && decide (env.effective_gas_price < env.block.basefee)) = false)
    (h3 : env.tx.gas_limit ≤ env.block.gas_limit)
    (h4 : initialization_gas flags env.tx ≤ env.tx.gas_limit)
    (sr1 : SubRoutine)
    (hsr1 : sr1 = ((warmAccessList flags db env.tx sr0).load_account db env.tx.caller).1)
    (h5 : (sr1.account env.tx.caller).code_hash = KECCAK_EMPTY)
    (h6 : env.tx.gas_limit * env.effective_gas_price < 2 ^ 256)
    (h7 : env.tx.gas_limit * env.effective_gas_price ≤ (sr1.account env.tx.caller).balance) :
    (preflight flags db env sr0 = .error .OutOfFund ↔
      (sr1.account env.tx.caller).balance - env.tx.gas_limit * env.effective_gas_price <
        (env.tx.gas_price - env.effective_gas_price) + env.tx.value) ∧
    (env.tx.gas_priority_fee = none → env.tx.gas_price - env.effective_gas_price = 0) := by
  constructor
  · have hng : ¬ (env.block.gas_limit < env.tx.gas_limit) := Nat.not_lt.mpr h3
    have hrc : ¬ (env.tx.gas_limit < initialization_gas flags env.tx) := by omega
    have hbal : ¬ ((sr1.account env.tx.caller).balance <
        env.tx.gas_limit * env.effective_gas_price) := Nat.not_lt.mpr h7
    have hpair : (warmAccessList flags db env.tx sr0).load_account db env.tx.caller =
        (sr1, ((warmAccessList flags db env.tx sr0).load_account db env.tx.caller).2) := by
      rw [hsr1]
    unfold preflight
    simp [h1, h2, hng, hrc, Gas.record_cost, Gas.new]
    rw [hpair]
    have h6d : env.tx.gas_limit * env.effective_gas_price <
        115792089237316195423570985008687907853269984665640564039457584007913129639936 := by
      omega
    simp [h5, h6d]
    simp [SubRoutine.balance_sub, hbal]
    simp [SubRoutine.account, assocFind_insert_self]
  · intro hnone
    simp [Env.effective_gas_price, hnone]

/-- Concrete fixtures for witnesses: caller 1 holds exactly the gas debit plus
5 wei. -/
def wDbFund : Db :=
  { basic := fun a =>
      if a = 1 then
        some { balance := 210005, nonce := 0, code_hash := KECCAK_EMPTY, code := [] }
      else none }

/-- Concrete fixtures for witnesses: legacy transaction sending 100 wei with
gas price 10 and gas limit 21000. -/
def wEnvFund : Env :=
  { block := { coinbase := 9, gas_limit := 1000000, basefee := 0 },
    tx := { caller := 1, gas_price := 10, gas_priority_fee := none, gas_limit := 21000,
            transact_to := .call 2, value := 100, data := [], access_list := [] } }

/-- Caller state after access-list warming and loading, for the C6 witness. -/
def wSr1Fund : SubRoutine :=
  ((warmAccessList wFlagsFrontier wDbFund wEnvFund.tx SubRoutine.empty).load_account
    wDbFund wEnvFund.tx.caller).1

/-- Witness for C6 at a concrete input: after the 210000 debit only 5 wei
remain, the value 100 does not fit, and the difference term of the legacy
transaction is zero. -/
theorem outoffund_check_witness :
    (preflight wFlagsFrontier wDbFund wEnvFund SubRoutine.empty = .error .OutOfFund ↔
      (wSr1Fund.account wEnvFund.tx.caller).balance -
          wEnvFund.tx.gas_limit * wEnvFund.effective_gas_price <
        (wEnvFund.tx.gas_price - wEnvFund.effective_gas_price) + wEnvFund.tx.value) ∧
    (wEnvFund.tx.gas_priority_fee = none →
      wEnvFund.tx.gas_price - wEnvFund.effective_gas_price = 0) :=
  outoffund_check wFlagsFrontier wDbFund wEnvFund SubRoutine.empty
    (by decide) (by decide) (by decide) (by decide) wSr1Fund rfl
    (by decide) (by decide) (by decide)

/-- C2: at finalisation, `gas_used = spent − min(refunded, spent / Q)` with
`Q = 5` under London and `Q = 2` otherwise; the caller is credited
`effective_gas_price × (remaining + capped refund)`; the coinbase is credited
`(effective_gas_price − basefee under London, else effective_gas_price) ×
(spent − capped refund)`; consequently `gas_used ≥ spent × (Q−1)/Q`. -/
theorem finalize_accounting (flags : SpecFlags) (db : Db) (env : Env) (caller : Nat)
    (gas : Gas) (sr : SubRoutine) (accC : AccountInfo)
    (hcb : caller ≠ env.block.coinbase)
    (hc : assocFind sr.st.accounts caller = some accC) :
    (finalize flags db env caller gas sr).2.2 =
      gas.spend - min gas.refunded (gas.spend / (if flags.london then 5 else 2)) ∧
    assocFind (finalize flags db env caller gas sr).1 caller =
      some { accC with balance := accC.balance + env.effective_gas_price *
        (gas.remaining + min gas.refunded (gas.spend / (if flags.london then 5 else 2))) } ∧
    assocFind (finalize flags db env caller gas sr).1 env.block.coinbase =
      some { effAccount db sr env.block.coinbase with
        balance := (effAccount db sr env.block.coinbase).balance +
          (if flags.london then env.effective_gas_price - env.block.basefee
            else env.effective_gas_price) *
          (gas.spend - min gas.refunded (gas.spend / (if flags.london then 5 else 2))) } ∧
    gas.spend * ((if flags.london then 5 else 2) - 1) / (if flags.london then 5 else 2) ≤
      (finalize flags db env caller gas sr).2.2 := by
  refine ⟨?_, ?_, ?_, ?_⟩
  · cases hl : flags.london <;> simp [finalize, hl]
  · cases hl : flags.london <;>
    cases hcoin : assocFind sr.st.accounts env.block.coinbase <;>
      simp [finalize, hl, hcoin, SubRoutine.balance_add, SubRoutine.account,
        SubRoutine.load_account, effAccount, dbAccount, hc, assocFind_insert_self,
        assocFind_insert_ne _ _ _ _ hcb, assocFind_insert_ne _ _ _ _ (Ne.symm hcb)]
  · cases hl : flags.london <;>
    cases hcoin : assocFind sr.st.accounts env.block.coinbase <;>
      simp [finalize, hl, hcoin, SubRoutine.balance_add, SubRoutine.account,
        SubRoutine.load_account, effAccount, dbAccount, hc, assocFind_insert_self,
        assocFind_insert_ne _ _ _ _ hcb, assocFind_insert_ne _ _ _ _ (Ne.symm hcb)]
  · cases hl : flags.london <;> simp [finalize, hl] <;> omega

/-- Concrete fixtures for witnesses: the account record `wDbFund` serves for
caller 1. -/
def wAccFund : AccountInfo :=
  { balance := 210005, nonce := 0, code_hash := KECCAK_EMPTY, code := [] }

/-- Journal with caller 1 loaded, for the C2 witness. -/
def wSrLoaded : SubRoutine := (SubRoutine.empty.load_account wDbFund 1).1

/-- Gas record after an execution that spent 60 of 100 with 10 refundable,
for the C2 witness. -/
def wGasSpent : Gas := { limit := 100, used := 60, refunded := 10 }

/-- Witness for C2 at a concrete input, under London: `Q = 5`, capped refund
`min 10 (60 / 5) = 10`, `gas_used = 50`, caller credited `10 × (40 + 10)`,
coinbase credited `(10 − 0) × (60 − 10)`. -/
theorem finalize_accounting_witness :
    (finalize wFlagsLondon wDbFund wEnvFund 1 wGasSpent wSrLoaded).2.2 =
      wGasSpent.spend -
        min wGasSpent.refunded (wGasSpent.spend / (if wFlagsLondon.london then 5 else 2)) ∧
    assocFind (finalize wFlagsLondon wDbFund wEnvFund 1 wGasSpent wSrLoaded).1 1 =
      some { wAccFund with balance := wAccFund.balance + wEnvFund.effective_gas_price *
        (wGasSpent.remaining +
          min wGasSpent.refunded (wGasSpent.spend / (if wFlagsLondon.london then 5 else 2))) } ∧
    assocFind (finalize wFlagsLondon wDbFund wEnvFund 1 wGasSpent wSrLoaded).1
        wEnvFund.block.coinbase =
      some { effAccount wDbFund wSrLoaded wEnvFund.block.coinbase with
        balance := (effAccount wDbFund wSrLoaded wEnvFund.block.coinbase).balance +
          (if wFlagsLondon.london then
            wEnvFund.effective_gas_price - wEnvFund.block.basefee
           else wEnvFund.effective_gas_price) *
          (wGasSpent.spend -
            min wGasSpent.refunded
              (wGasSpent.spend / (if wFlagsLondon.london then 5 else 2))) } ∧
    wGasSpent.spend * ((if wFlagsLondon.london then 5 else 2) - 1) /
        (if wFlagsLondon.london then 5 else 2) ≤
      (finalize wFlagsLondon wDbFund wEnvFund 1 wGasSpent wSrLoaded).2.2 :=
  finalize_accounting wFlagsLondon wDbFund wEnvFund 1 wGasSpent wSrLoaded wAccFund
    (by decide) (by decide)

/-- Account view after a load equals the effective view before it. -/
theorem account_after_load (sr : SubRoutine) (db : Db) (a : Nat) :
    ((sr.load_account db a).1).account a = effAccount db sr a := by
  unfold SubRoutine.account
  rw [load_account_find]
  rfl

/-- C8: in both handlers, a call depth beyond 1024 returns `CallTooDeep`
before any checkpoint is opened, any transfer, any nonce increment or any
interpreter frame: the handler result carries a fresh gas record and empty
output, and the resulting journal has unchanged effective accounts, logs,
checkpoint stack and depth (only the address-load cache may have grown). -/
theorem depth_check_no_mutation (flags : SpecFlags) (db : Db) (precompiles : List Nat)
    (pOracle : Except Unit PrecompileOut) (iOracle : InterpOracle)
    (cInputs : CallInputs) (crInputs : CreateInputs) (sr : SubRoutine)
    (hdepth : CALL_STACK_LIMIT < sr.depth) :
    ((call_inner flags db precompiles pOracle iOracle cInputs sr).1 =
        (.CallTooDeep, Gas.new cInputs.gas_limit, []) ∧
      (∀ a, effAccount db (call_inner flags db precompiles pOracle iOracle cInputs sr).2 a =
        effAccount db sr a) ∧
      (call_inner flags db precompiles pOracle iOracle cInputs sr).2.st.logs = sr.st.logs ∧
      (call_inner flags db precompiles pOracle iOracle cInputs sr).2.checkpoints =
        sr.checkpoints ∧
      (call_inner flags db precompiles pOracle iOracle cInputs sr).2.depth = sr.depth) ∧
    ((create_inner flags db iOracle crInputs sr).1 =
        (.CallTooDeep, none, Gas.new crInputs.gas_limit, []) ∧
      (∀ a, effAccount db (create_inner flags db iOracle crInputs sr).2 a =
        effAccount db sr a) ∧
      (create_inner flags db iOracle crInputs sr).2.st.logs = sr.st.logs ∧
      (create_inner flags db iOracle crInputs sr).2.checkpoints = sr.checkpoints ∧
      (create_inner flags db iOracle crInputs sr).2.depth = sr.depth) := by
  constructor
  · have hcond : CALL_STACK_LIMIT < ((sr.load_account db cInputs.contract).1).depth := by
      rw [(load_account_frame sr db cInputs.contract).1]
      exact hdepth
    have hres : call_inner flags db precompiles pOracle iOracle cInputs sr =
        ((.CallTooDeep, Gas.new cInputs.gas_limit, []),
          (sr.load_account db cInputs.contract).1) := by
      unfold call_inner call_prep
      simp [hcond]
    rw [hres]
    refine ⟨rfl, ?_, ?_, ?_, ?_⟩
    · intro a
      exact load_account_effAccount sr db cInputs.contract a
    · exact (load_account_frame sr db cInputs.contract).2.2
    · exact (load_account_frame sr db cInputs.contract).2.1
    · exact (load_account_frame sr db cInputs.contract).1
  · have hcond : CALL_STACK_LIMIT < ((sr.load_account db crInputs.caller).1).depth := by
      rw [(load_account_frame sr db crInputs.caller).1]
      exact hdepth
    have hres : create_inner flags db iOracle crInputs sr =
        ((.CallTooDeep, none, Gas.new crInputs.gas_limit, []),
          (sr.load_account db crInputs.caller).1) := by
      unfold create_inner create_prep
      simp [hcond]
    rw [hres]
    refine ⟨rfl, ?_, ?_, ?_, ?_⟩
    · intro a
      exact load_account_effAccount sr db crInputs.caller a
    · exact (load_account_frame sr db crInputs.caller).2.2
    · exact (load_account_frame sr db crInputs.caller).2.1
    · exact (load_account_frame sr db crInputs.caller).1

/-- Journal already 1025 frames deep, for the C8 witness. -/
def wSrDeep : SubRoutine := { st := ⟨[], [], []⟩, depth := 1025, checkpoints := [] }

/-- Call inputs for the C8 witness. -/
def wCallDeepInputs : CallInputs :=
  { contract := 2, transfer := { source := 1, target := 2, value := 0 }, input := [],
    gas_limit := 1000, context := { caller := 1, address := 2, apparent_value := 0 } }

/-- Create inputs for the C8 witness. -/
def wCreateDeepInputs : CreateInputs :=
  { caller := 1, scheme := .create, value := 0, init_code := [], gas_limit := 1000 }

/-- Witness for C8 at depth 1025: both handlers return `CallTooDeep` and
leave the journal observationally unchanged. -/
theorem depth_check_no_mutation_witness :
    (call_inner wFlagsLondon wDbEmpty [] (.error ()) wOracleStop wCallDeepInputs wSrDeep).1 =
      (.CallTooDeep, Gas.new wCallDeepInputs.gas_limit, []) ∧
    effAccount wDbEmpty
      (call_inner wFlagsLondon wDbEmpty [] (.error ()) wOracleStop wCallDeepInputs wSrDeep).2 1 =
      effAccount wDbEmpty wSrDeep 1 ∧
    (create_inner wFlagsLondon wDbEmpty wOracleStop wCreateDeepInputs wSrDeep).1 =
      (.CallTooDeep, none, Gas.new wCreateDeepInputs.gas_limit, []) ∧
    (create_inner wFlagsLondon wDbEmpty wOracleStop wCreateDeepInputs wSrDeep).2.depth =
      wSrDeep.depth := by
  have h := depth_check_no_mutation wFlagsLondon wDbEmpty [] (.error ()) wOracleStop
    wCallDeepInputs wCreateDeepInputs wSrDeep (by decide)
  exact ⟨h.1.1, h.1.2.1 1, h.2.1, h.2.2.2.2.2⟩

/-- Address slot of a create-handler pre-phase result: the optional address of
an early exit, or the derived address handed to the interpreter phase. -/
def createPrepAddr :
    (((Ret × Option Nat × Gas × List Nat) × SubRoutine) ⊕ (SubRoutine × Nat)) → Option Nat
  | .inl (out, _) => out.2.1
  | .inr (_, a) => some a

/-- Every branch of the post-interpreter phase carries the created address. -/
theorem create_finish_addr (flags : SpecFlags) (oracle : InterpOracle) (sr : SubRoutine)
    (a : Nat) : (create_finish flags oracle sr a).1.2.1 = some a := by
  unfold create_finish
  repeat' first
    | split
    | dsimp only

/-- Once the depth and balance checks pass, the pre-phase derives the address
from the caller's pre-increment nonce (or the salt) and carries it in every
outcome. -/
theorem create_prep_addr (flags : SpecFlags) (db : Db) (inputs : CreateInputs)
    (sr : SubRoutine)
    (hd : ¬ CALL_STACK_LIMIT < sr.depth)
    (hb : ¬ (effAccount db sr inputs.caller).balance < inputs.value) :
    createPrepAddr (create_prep flags db inputs sr) =
      some (match inputs.scheme with
        | .create => create_address inputs.caller (effAccount db sr inputs.caller).nonce
        | .create2 salt => create2_address inputs.caller (keccak256 inputs.init_code) salt) := by
  have hcond : ¬ CALL_STACK_LIMIT < ((sr.load_account db inputs.caller).1).depth := by
    rw [(load_account_frame sr db inputs.caller).1]
    exact hd
  unfold create_prep
  simp only [hcond, if_false, balanceHost, account_after_load, load_account_effAccount,
    SubRoutine.inc_nonce]
  simp only [hb, if_false]
  repeat' split
  all_goals simp_all [createPrepAddr]

/-- C10: the optional created address of the create handler is `none` exactly
when the depth check or the pre-checkpoint balance check fails; once the
address is derived, every outcome carries `some created_address`, its value
being the scheme derivation from the caller pre-increment nonce. -/
theorem create_address_option (flags : SpecFlags) (db : Db) (iOracle : InterpOracle)
    (inputs : CreateInputs) (sr : SubRoutine) :
    ((create_inner flags db iOracle inputs sr).1.2.1 = none ↔
      CALL_STACK_LIMIT < sr.depth ∨
        (effAccount db sr inputs.caller).balance < inputs.value) ∧
    (¬ (CALL_STACK_LIMIT < sr.depth ∨
        (effAccount db sr inputs.caller).balance < inputs.value) →
      (create_inner flags db iOracle inputs sr).1.2.1 =
        some (match inputs.scheme with
          | .create => create_address inputs.caller (effAccount db sr inputs.caller).nonce
          | .create2 salt => create2_address inputs.caller (keccak256 inputs.init_code) salt)) := by
  have hd1 := (load_account_frame sr db inputs.caller).1
  by_cases hd : CALL_STACK_LIMIT < sr.depth
  · have hcond : CALL_STACK_LIMIT < ((sr.load_account db inputs.caller).1).depth := by
      rw [hd1]; exact hd
    constructor
    · unfold create_inner create_prep
      simp [hcond, hd]
    · intro hn
      exact absurd (Or.inl hd) hn
  · have hcond : ¬ CALL_STACK_LIMIT < ((sr.load_account db inputs.caller).1).depth := by
      rw [hd1]; exact hd
    by_cases hb : (effAccount db sr inputs.caller).balance < inputs.value
    · have hres : create_inner flags db iOracle inputs sr =
          ((.OutOfFund, none, Gas.new inputs.gas_limit, []),
            (((sr.load_account db inputs.caller).1).load_account db inputs.caller).1) := by
        unfold create_inner create_prep
        simp only [hcond, if_false, balanceHost, account_after_load, load_account_effAccount]
        simp [hb]
      constructor
      · rw [hres]
        simp [hb]
      · intro hn
        exact absurd (Or.inr hb) hn
    · have haddr := create_prep_addr flags db inputs sr hd hb
      have hsome : (create_inner flags db iOracle inputs sr).1.2.1 =
          some (match inputs.scheme with
            | .create => create_address inputs.caller (effAccount db sr inputs.caller).nonce
            | .create2 salt => create2_address inputs.caller (keccak256 inputs.init_code) salt) := by
        unfold create_inner
        cases hcp : create_prep flags db inputs sr with
        | inl p =>
          rw [hcp] at haddr
          simpa [createPrepAddr] using haddr
        | inr p =>
          rw [hcp] at haddr
          simp only [createPrepAddr] at haddr
          obtain ⟨s2, a2⟩ := p
          simp only [Option.some.injEq] at haddr
          rw [← haddr]
          exact create_finish_addr flags iOracle s2 a2
      constructor
      · rw [hsome]
        simp [hd, hb]
      · intro _
        exact hsome

/-- C5: when the interpreter returns success from init-code, the output gates
of the create handler apply in order: under London a first byte 0xEF reverts
with `CreateContractWithEF`; otherwise under Spurious Dragon code longer than
0x6000 reverts with `CreateContractLimit`; otherwise an unpayable code-deposit
charge of `CODEDEPOSIT = 200` gas per byte reverts with `OutOfGas`; otherwise
the checkpoint is committed and the code installed at the created address. -/
theorem create_output_gates (flags : SpecFlags) (db : Db) (oracle : InterpOracle)
    (inputs : CreateInputs) (sr sr1 : SubRoutine) (addr : Nat) (ck : JState)
    (cks : List JState)
    (hreach : create_prep flags db inputs sr = .inr (sr1, addr))
    (hck : sr1.checkpoints = ck :: cks)
    (hok : isOkReturn oracle.reason = true) :
    (flags.london = true → oracle.retval.head? = some 0xEF →
      (create_inner flags db oracle inputs sr).1 =
        (.CreateContractWithEF, some addr, oracle.gas, []) ∧
      (create_inner flags db oracle inputs sr).2.st = ck ∧
      (create_inner flags db oracle inputs sr).2.checkpoints = cks) ∧
    (¬ (flags.london = true ∧ oracle.retval.head? = some 0xEF) →
      flags.spuriousDragon = true → 0x6000 < oracle.retval.length →
      (create_inner flags db oracle inputs sr).1 =
        (.CreateContractLimit, some addr, oracle.gas, []) ∧
      (create_inner flags db oracle inputs sr).2.st = ck ∧
      (create_inner flags db oracle inputs sr).2.checkpoints = cks) ∧
    (¬ (flags.london = true ∧ oracle.retval.head? = some 0xEF) →
      ¬ (flags.spuriousDragon = true ∧ 0x6000 < oracle.retval.length) →
      oracle.gas.limit < oracle.gas.used + oracle.retval.length * CODEDEPOSIT →
      (create_inner flags db oracle inputs sr).1 =
        (.OutOfGas, some addr, oracle.gas, []) ∧
      (create_inner flags db oracle inputs sr).2.st = ck ∧
      (create_inner flags db oracle inputs sr).2.checkpoints = cks) ∧
    (¬ (flags.london = true ∧ oracle.retval.head? = some 0xEF) →
      ¬ (flags.spuriousDragon = true ∧ 0x6000 < oracle.retval.length) →
      ¬ (oracle.gas.limit < oracle.gas.used + oracle.retval.length * CODEDEPOSIT) →
      (create_inner flags db oracle inputs sr).1 =
        (.Continue, some addr,
          { oracle.gas with used := oracle.gas.used + oracle.retval.length * CODEDEPOSIT },
          []) ∧
      (create_inner flags db oracle inputs sr).2.checkpoints = cks ∧
      assocFind (create_inner flags db oracle inputs sr).2.st.accounts addr =
        some { (SubRoutine.account { sr1 with st := oracle.effect sr1.st } addr) with
               code := oracle.retval, code_hash := keccak256 oracle.retval }) := by
  have hmain : create_inner flags db oracle inputs sr = create_finish flags oracle sr1 addr := by
    unfold create_inner
    rw [hreach]
  refine ⟨?_, ?_, ?_, ?_⟩
  · intro hL hEF
    have hne : oracle.retval ≠ [] := by
      intro hempty
      rw [hempty] at hEF
      exact Option.noConfusion hEF
    rw [hmain]
    unfold create_finish
    simp [hok, hL, hne, hEF, SubRoutine.checkpoint_revert, hck]
  · intro hnEF hSD hlen
    have hgate1p : ¬ ((flags.london = true ∧ ¬ oracle.retval = []) ∧
        oracle.retval.head? = some 0xEF) := by
      rintro ⟨⟨hL, _⟩, hEF⟩
      exact hnEF ⟨hL, hEF⟩
    rw [hmain]
    unfold create_finish
    simp [hok, hgate1p, hSD, hlen, SubRoutine.checkpoint_revert, hck]
  · intro hnEF hnSD hfail
    have hgate1p : ¬ ((flags.london = true ∧ ¬ oracle.retval = []) ∧
        oracle.retval.head? = some 0xEF) := by
      rintro ⟨⟨hL, _⟩, hEF⟩
      exact hnEF ⟨hL, hEF⟩
    rw [hmain]
    unfold create_finish
    simp [hok, hgate1p, hnSD, Gas.record_cost, hfail, SubRoutine.checkpoint_revert, hck]
  · intro hnEF hnSD hpay
    have hgate1p : ¬ ((flags.london = true ∧ ¬ oracle.retval = []) ∧
        oracle.retval.head? = some 0xEF) := by
      rintro ⟨⟨hL, _⟩, hEF⟩
      exact hnEF ⟨hL, hEF⟩
    rw [hmain]
    unfold create_finish
    simp [hok, hgate1p, hnSD, Gas.record_cost, hpay, SubRoutine.checkpoint_commit,
      SubRoutine.set_code, SubRoutine.account, hck, assocFind_insert_self]

/-- Folding `log` over a list appends the entries in order and leaves the
checkpoint stack alone. -/
theorem foldl_log_spec (ls : List Log) (s : SubRoutine) :
    (ls.foldl SubRoutine.log s).st.logs = s.st.logs ++ ls ∧
    (ls.foldl SubRoutine.log s).checkpoints = s.checkpoints := by
  induction ls generalizing s with
  | nil => simp
  | cons l rest ih =>
    constructor
    · rw [List.foldl_cons, (ih (s.log l)).1]
      simp [SubRoutine.log]
    · rw [List.foldl_cons, (ih (s.log l)).2]
      simp [SubRoutine.log]

/-- C7: in the call handler, a target in the precompile registry dispatches to
the precompile: on success with a cost within the frame gas limit the
checkpoint is committed, the precompile logs are appended in order and the
output bytes return with `Continue`; a cost beyond the limit reverts with
`OutOfGas` and empty output; a precompile failure reverts with `Precompile`
and empty output. -/
theorem call_precompile_dispatch (flags : SpecFlags) (db : Db) (precompiles : List Nat)
    (pOracle : Except Unit PrecompileOut) (iOracle : InterpOracle) (inputs : CallInputs)
    (sr sr1 : SubRoutine) (ck : JState) (cks : List JState)
    (hreach : call_prep db inputs sr = .inr sr1)
    (hck : sr1.checkpoints = ck :: cks)
    (hp : precompiles.contains inputs.contract = true) :
    (∀ pout : PrecompileOut, pOracle = .ok pout →
      (pout.cost ≤ inputs.gas_limit →
        (call_inner flags db precompiles pOracle iOracle inputs sr).1 =
          (.Continue, { limit := inputs.gas_limit, used := pout.cost, refunded := 0 },
            pout.output) ∧
        (call_inner flags db precompiles pOracle iOracle inputs sr).2.st.logs =
          sr1.st.logs ++ pout.logs ∧
        (call_inner flags db precompiles pOracle iOracle inputs sr).2.checkpoints = cks) ∧
      (inputs.gas_limit < pout.cost →
        (call_inner flags db precompiles pOracle iOracle inputs sr).1 =
          (.OutOfGas, Gas.new inputs.gas_limit, []) ∧
        (call_inner flags db precompiles pOracle iOracle inputs sr).2.st = ck ∧
        (call_inner flags db precompiles pOracle iOracle inputs sr).2.checkpoints = cks)) ∧
    (pOracle = .error () →
      (call_inner flags db precompiles pOracle iOracle inputs sr).1 =
        (.Precompile, Gas.new inputs.gas_limit, []) ∧
      (call_inner flags db precompiles pOracle iOracle inputs sr).2.st = ck ∧
      (call_inner flags db precompiles pOracle iOracle inputs sr).2.checkpoints = cks) := by
  have hmem : inputs.contract ∈ precompiles := by simpa using hp
  constructor
  · intro pout hpo
    constructor
    · intro hcost
      have hrc : ¬ (inputs.gas_limit < pout.cost) := by omega
      unfold call_inner
      rw [hreach, hpo]
      simp [hmem, Gas.record_cost, Gas.new, hrc, SubRoutine.checkpoint_commit,
        (foldl_log_spec pout.logs sr1).1, (foldl_log_spec pout.logs sr1).2, hck]
    · intro hcost
      unfold call_inner
      rw [hreach, hpo]
      simp [hmem, Gas.record_cost, Gas.new, hcost, SubRoutine.checkpoint_revert, hck]
  · intro hpo
    unfold call_inner
    rw [hreach, hpo]
    simp [hmem, SubRoutine.checkpoint_revert, hck]

/-- Empty account with a given nonce, for witness literals. -/
def wAccN (n : Nat) : AccountInfo :=
  { balance := 0, nonce := n, code_hash := KECCAK_EMPTY, code := [] }

/-- Create inputs for the C10 witness: CREATE2 with salt 5, empty init code. -/
def wCreateSalt : CreateInputs :=
  { caller := 1, scheme := .create2 5, value := 0, init_code := [], gas_limit := 1000 }

/-- Witness for C10 at a concrete input: depth 0 and zero value, so the
handler derives and returns the CREATE2 address. -/
theorem create_address_option_witness :
    ((create_inner wFlagsLondon wDbEmpty wOracleStop wCreateSalt SubRoutine.empty).1.2.1 = none ↔
      CALL_STACK_LIMIT < SubRoutine.empty.depth ∨
        (effAccount wDbEmpty SubRoutine.empty wCreateSalt.caller).balance < wCreateSalt.value) ∧
    (create_inner wFlagsLondon wDbEmpty wOracleStop wCreateSalt SubRoutine.empty).1.2.1 =
      some (create2_address wCreateSalt.caller (keccak256 wCreateSalt.init_code) 5) := by
  have h := create_address_option wFlagsLondon wDbEmpty wOracleStop wCreateSalt SubRoutine.empty
  exact ⟨h.1, h.2 (by decide)⟩

/-- Create inputs for the C5 witness: plain CREATE, empty init code. -/
def wCreatePlain : CreateInputs :=
  { caller := 1, scheme := .create, value := 0, init_code := [], gas_limit := 1000 }

/-- The address `create_address 1 0` as a literal (validated against the
reference RLP/Keccak formula). -/
def wAddrC5 : Nat := 469100581533983149669021215890874117153841460313

/-- Checkpoint snapshot taken by the create pre-phase of the C5 witness. -/
def wCkC5 : JState :=
  { accounts := [(1, wAccN 1), (wAddrC5, wAccN 0)], warm := [wAddrC5, 1], logs := [] }

/-- State handed to the interpreter in the C5 witness. -/
def wSr1C5 : SubRoutine :=
  { st := { accounts := [(1, wAccN 1), (wAddrC5, wAccN 1)], warm := [wAddrC5, 1], logs := [] },
    depth := 1,
    checkpoints := [wCkC5] }

set_option maxRecDepth 40000 in
/-- Witness for C5 at a concrete input: the interpreter stops with empty
output, all three gates pass, the checkpoint is committed and the (empty)
code is installed at the created address. -/
theorem create_output_gates_witness :
    (create_inner wFlagsLondon wDbEmpty wOracleStop wCreatePlain SubRoutine.empty).1 =
      (.Continue, some wAddrC5,
        { wOracleStop.gas with
          used := wOracleStop.gas.used + wOracleStop.retval.length * CODEDEPOSIT }, []) ∧
    (create_inner wFlagsLondon wDbEmpty wOracleStop wCreatePlain SubRoutine.empty).2.checkpoints
      = [] ∧
    assocFind
      (create_inner wFlagsLondon wDbEmpty wOracleStop wCreatePlain SubRoutine.empty).2.st.accounts
      wAddrC5 =
      some { (SubRoutine.account { wSr1C5 with st := wOracleStop.effect wSr1C5.st } wAddrC5) with
             code := wOracleStop.retval, code_hash := keccak256 wOracleStop.retval } := by
  have h := create_output_gates wFlagsLondon wDbEmpty wOracleStop wCreatePlain SubRoutine.empty
    wSr1C5 wAddrC5 wCkC5 [] (by decide) rfl rfl
  exact h.2.2.2 (by decide) (by decide) (by decide)

/-- Call inputs for the C7 witness: zero-value call into precompile address 2. -/
def wCallPre : CallInputs :=
  { contract := 2, transfer := { source := 1, target := 2, value := 0 }, input := [],
    gas_limit := 100, context := { caller := 1, address := 2, apparent_value := 0 } }

/-- Precompile outcome for the C7 witness: two output bytes, cost 10, one log. -/
def wPout : PrecompileOut :=
  { output := [7, 7], cost := 10, logs := [{ address := 2, topics := [], data := [5] }] }

/-- Checkpoint snapshot of the call pre-phase in the C7 witness. -/
def wCkCall : JState := { accounts := [(2, wAccN 0)], warm := [2], logs := [] }

/-- State handed to the precompile dispatch in the C7 witness. -/
def wSr1Call : SubRoutine :=
  { st := { accounts := [(2, wAccN 0), (1, wAccN 0)], warm := [1, 2], logs := [] },
    depth := 1,
    checkpoints := [wCkCall] }

/-- Witness for C7 at a concrete input: the precompile succeeds with cost 10
of 100, the checkpoint commits, its log is appended and the output returns. -/
theorem call_precompile_dispatch_witness :
    (call_inner wFlagsLondon wDbEmpty [2] (.ok wPout) wOracleStop wCallPre SubRoutine.empty).1 =
      (.Continue, { limit := wCallPre.gas_limit, used := wPout.cost, refunded := 0 },
        wPout.output) ∧
    (call_inner wFlagsLondon wDbEmpty [2] (.ok wPout) wOracleStop wCallPre
        SubRoutine.empty).2.st.logs = wSr1Call.st.logs ++ wPout.logs ∧
    (call_inner wFlagsLondon wDbEmpty [2] (.ok wPout) wOracleStop wCallPre
        SubRoutine.empty).2.checkpoints = [] := by
  have h := call_precompile_dispatch wFlagsLondon wDbEmpty [2] (.ok wPout) wOracleStop wCallPre
    SubRoutine.empty wSr1Call wCkCall [] (by decide) rfl (by decide)
  exact (h.1 wPout rfl).1 (by decide)
